import Mathlib

/-!
Shallow embedding of the tiered fund-NAV estimation service of the
baiye-fund repository (`src/main.py`, the legacy service, and
`src/backend/main.py`, the backend service).

Conventions used throughout:
* Python floats are modelled as rationals (`ℚ`); the decimal string
  formatting (`"{:.2f}".format(x)`) applied at the response boundary is
  kept as the exact rational value it formats.
* Date strings `"YYYY-MM-DD"` compare lexicographically exactly in
  chronological order, so dates are modelled as `Nat`, with `Option Nat`
  where the Python code uses the empty string for "no date".
* Wall-clock times are seconds since midnight China time (`Nat`);
  weekdays follow Python `datetime.weekday()` (0 = Monday ... 6 = Sunday).
* The per-fund dicts are modelled as structures whose fields carry the
  keys the code reads and writes (`gsz`, `gszzl`, `dwjz`, `jzrq`,
  `source`, ...), including the temporary `_last_nav` key of the backend.
-/

/-- The market-session phases produced by the two clock functions. -/
inductive Phase where
  | WEEKEND
  | PRE_MARKET
  | MARKET
  | LUNCH_BREAK
  | POST_MARKET
  deriving DecidableEq, Repr

/-- The function `_get_time_phase` of `src/main.py`: weekday ≥ 5 is
WEEKEND; before 09:30 PRE_MARKET; from 09:30 up to and including 15:00
MARKET (there is no lunch-break case); after 15:00 POST_MARKET.
`sec` is seconds since midnight China time. -/
def legacyGetTimePhase (weekday sec : Nat) : Phase :=
  if weekday ≥ 5 then .WEEKEND
  else if sec < 9 * 3600 + 30 * 60 then .PRE_MARKET
  else if sec ≤ 15 * 3600 then .MARKET
  else .POST_MARKET

/-- The function `AkshareService.get_time_phase` of `src/backend/main.py`:
weekday ≥ 5 WEEKEND; before 09:15 PRE_MARKET; 11:30 (incl.) to 13:00
(excl.) LUNCH_BREAK; otherwise up to and including 15:00 MARKET; after
15:00 POST_MARKET. -/
def backendGetTimePhase (weekday sec : Nat) : Phase :=
  if weekday ≥ 5 then .WEEKEND
  else if sec < 9 * 3600 + 15 * 60 then .PRE_MARKET
  else if 11 * 3600 + 30 * 60 ≤ sec ∧ sec < 13 * 3600 then .LUNCH_BREAK
  else if sec ≤ 15 * 3600 then .MARKET
  else .POST_MARKET

/-- One slot of the backend in-memory cache: `{"data": ..., "time": ...}`
as written by `CacheService.set`. `time` is a `time.time()` value,
modelled as a rational. -/
structure CacheEntry (α : Type) where
  data : α
  time : ℚ
  deriving DecidableEq, Repr

/-- `CacheService.get` of `src/backend/main.py`. The store is modelled as
a partial map from keys to entries; the function returns the hit (if any)
together with the store after the call (an expired read deletes the slot).
`ttl = 0` means no expiry, per the code comment "0 ttl means infinite". -/
def cacheGet {α : Type} (cache : String → Option (CacheEntry α)) (key : String)
    (ttl now : ℚ) : Option α × (String → Option (CacheEntry α)) :=
  match cache key with
  | none => (none, cache)
  | some entry =>
      if ttl = 0 ∨ now - entry.time < ttl then (some entry.data, cache)
      else (none, fun k => if k = key then none else cache k)

/-- `CacheService.set` of `src/backend/main.py`. -/
def cacheSet {α : Type} (cache : String → Option (CacheEntry α)) (key : String)
    (data : α) (now : ℚ) : String → Option (CacheEntry α) :=
  fun k => if k = key then some ⟨data, now⟩ else cache k

/-- Python's substring test `kw in name`, on the characters of the two
strings. -/
def kwMatches (name kw : String) : Bool :=
  name.toList.tails.any fun t => kw.toList.isPrefixOf t

/-- One step of the keyword scan: keep the incumbent unless the new table
row's keyword matches the fund name and is strictly longer (so equal
lengths are resolved in favour of the earlier table row). -/
def proxyStep (name : String) :
    Option (String × String) → String × String → Option (String × String)
  | none, kv => if kwMatches name kv.1 then some kv else none
  | some b, kv =>
      if kwMatches name kv.1 then
        if b.1.length < kv.1.length then some kv else some b
      else some b

/-- Modelled from the spec: `ProxyResolver.resolve`, rule 2 (§4.4).  The
static keyword table and its longest-substring-match resolution are not
present in the files under src/ (`backend/main.py` only contains the
rule-1 self-resolution of ETF/LOF codes via `etf_lof_map`), so the table
scan is modelled from the spec's words: among all table keywords that are
substrings of the fund name, pick the one with the greatest character
length, ties broken by table order. -/
def proxyResolve (table : List (String × String)) (name : String) :
    Option (String × String) :=
  table.foldl (proxyStep name) none

/-- One disclosed holding: `{"code": ..., "name": ..., "percent": ...}`
(the name field is irrelevant to the computations and omitted). -/
structure Holding where
  code : String
  percent : ℚ
  deriving DecidableEq, Repr

/-- The JSON object scraped from the official feed
(`fundgz.1234567.com.cn`); `data.update(fetched)` overwrites only the keys
present in the payload, so every field is optional.  Dates are `Nat`
(see the file header). -/
structure OfficialFetch where
  fundcode : Option String
  name : Option String
  gsz : Option ℚ
  gszzl : Option ℚ
  dwjz : Option ℚ
  jzrq : Option Nat
  deriving DecidableEq, Repr

/-- The per-fund response dict of `src/main.py`
(`_process_single_fund_estimate` / `get_batch_estimate`). -/
structure LegacyData where
  fundcode : String
  name : String
  gsz : ℚ
  gszzl : ℚ
  dwjz : ℚ
  jzrq : Option Nat
  source : String
  deriving DecidableEq, Repr

/-- The default dict `{"fundcode": code, "gsz": "0", "gszzl": "0",
"dwjz": "0", "jzrq": "", "name": "", "source": "official"}`. -/
def legacyDefault (code : String) : LegacyData :=
  ⟨code, "", 0, 0, 0, none, "official"⟩

/-- `data.update(fetched)` for an optional feed payload. -/
def applyFetch (d : LegacyData) (f : Option OfficialFetch) : LegacyData :=
  match f with
  | none => d
  | some f =>
      { fundcode := f.fundcode.getD d.fundcode
        name := f.name.getD d.name
        gsz := f.gsz.getD d.gsz
        gszzl := f.gszzl.getD d.gszzl
        dwjz := f.dwjz.getD d.dwjz
        jzrq := match f.jzrq with | some v => some v | none => d.jzrq
        source := d.source }

/-- Step 2 of `_process_single_fund_estimate` (lines 241-251): take the
last row of the NAV history as `dwjz`/`jzrq` and as the confirmed NAV;
with no history fall back to a positive feed `dwjz`, else to `1.0`.
Returns the updated dict and `last_confirmed_nav`. -/
def legacyHistoryFold (d : LegacyData) (hist : List (Nat × ℚ)) : LegacyData × ℚ :=
  match hist.getLast? with
  | some (dt, nav) => ({ d with dwjz := nav, jzrq := some dt }, nav)
  | none => (d, if d.dwjz > 0 then d.dwjz else 1)

/-- `get_calc_result` of `_process_single_fund_estimate` (lines 270-291):
holdings extrapolation of the legacy service.  A holding whose code is
missing from the quote map contributes change `0` (`quotes.get(h, 0)`)
while its weight still enters `total_weight`; the estimated change is
`total_weighted_change / 100.0` — a fixed divisor, not the covered
weight — and no damping factor is applied. -/
def legacyGetCalcResult (holdings : List Holding) (quotes : List (String × ℚ))
    (lastConfirmedNav : ℚ) : Option (ℚ × ℚ) :=
  if holdings.isEmpty then none
  else
    let totalWeightedChange : ℚ :=
      holdings.foldl (fun s h => s + ((quotes.lookup h.code).getD 0) * h.percent) 0
    let totalWeight : ℚ := holdings.foldl (fun s h => s + h.percent) 0
    if totalWeight = 0 then none
    else
      let estimatedChange := totalWeightedChange / 100
      some (lastConfirmedNav * (1 + estimatedChange / 100), estimatedChange)

/-- The PRE_MARKET / WEEKEND branch (lines 256-267): surface the confirmed
NAV and, when at least two history rows exist with a positive previous
NAV, the realized change between the last two confirmed NAVs. -/
def legacyPreWeekend (d : LegacyData) (hist : List (Nat × ℚ)) (lastNav : ℚ) : LegacyData :=
  let d1 := { d with gsz := d.dwjz }
  if 2 ≤ hist.length then
    let prevNav := (hist.getD (hist.length - 2) (0, 0)).2
    if prevNav > 0 then
      { d1 with gszzl := (lastNav - prevNav) / prevNav * 100, source := "real_history" }
    else { d1 with source := "real_history" }
  else { d1 with gszzl := 0, source := "real_history" }

/-- The POST_MARKET branch of the single-fund endpoint (lines 311-341). -/
def legacyPostMarket (d : LegacyData) (hist : List (Nat × ℚ)) (lastNav : ℚ)
    (holdings : List Holding) (quotes : List (String × ℚ)) (today : Nat) : LegacyData :=
  if d.jzrq = some today then
    let currentNav := d.dwjz
    let prevNav :=
      match hist.getLast? with
      | none => 0
      | some (dt, nav) =>
          if dt = today then
            if 2 ≤ hist.length then (hist.getD (hist.length - 2) (0, 0)).2 else 0
          else nav
    if prevNav > 0 ∧ currentNav > 0 then
      { d with gsz := currentNav, gszzl := (currentNav - prevNav) / prevNav * 100,
               source := "real_updated" }
    else d
  else
    match legacyGetCalcResult holdings quotes lastNav with
    | some (g, z) => { d with gsz := g, gszzl := z, source := "holdings_close_est" }
    | none => { d with gsz := lastNav, gszzl := 0 }

/-- `_process_single_fund_estimate` of `src/main.py`, as a function of the
phase, today's date, the feed payload, the NAV history, the holdings and
the quote map. -/
def legacyProcessSingle (phase : Phase) (today : Nat) (fetch : Option OfficialFetch)
    (hist : List (Nat × ℚ)) (holdings : List Holding) (quotes : List (String × ℚ))
    (code : String) : LegacyData :=
  let dl := legacyHistoryFold (applyFetch (legacyDefault code) fetch) hist
  let d := dl.1
  let lastNav := dl.2
  if phase = Phase.PRE_MARKET ∨ phase = Phase.WEEKEND then
    legacyPreWeekend d hist lastNav
  else if phase = Phase.MARKET then
    if d.gsz > 0 ∧ d.gsz ≠ lastNav then d
    else
      match legacyGetCalcResult holdings quotes lastNav with
      | some (g, z) => { d with gsz := g, gszzl := z, source := "holdings_calc" }
      | none => { d with gsz := lastNav, gszzl := 0 }
  else if phase = Phase.POST_MARKET then
    legacyPostMarket d hist lastNav holdings quotes today
  else d

/-- One fund of `get_batch_estimate` of `src/main.py` (lines 429-552).
It differs from the single-fund endpoint in the POST_MARKET "official
updated" branch (only a positive previous NAV is required, and on failure
it falls through to the validity test) and in tagging the holdings result
"holdings_calc_batch". -/
def legacyBatchFund (phase : Phase) (today : Nat) (fetch : Option OfficialFetch)
    (hist : List (Nat × ℚ)) (holdings : List Holding) (quotes : List (String × ℚ))
    (code : String) : LegacyData :=
  let dl := legacyHistoryFold (applyFetch (legacyDefault code) fetch) hist
  let d := dl.1
  let lastNav := dl.2
  if phase = Phase.PRE_MARKET ∨ phase = Phase.WEEKEND then
    legacyPreWeekend d hist lastNav
  else
    let postUpdated : Option LegacyData :=
      if phase = Phase.POST_MARKET ∧ d.jzrq = some today then
        let curr := d.dwjz
        let prev : ℚ :=
          match hist.getLast? with
          | none => 0
          | some (dt, nav) =>
              if dt = today then
                if 2 ≤ hist.length then (hist.getD (hist.length - 2) (0, 0)).2 else 0
              else nav
        if prev > 0 then
          some { d with gsz := curr, gszzl := (curr - prev) / prev * 100,
                        source := "real_updated" }
        else none
      else none
    match postUpdated with
    | some r => r
    | none =>
        if d.gsz > 0 ∧ d.gsz ≠ lastNav then d
        else if holdings.isEmpty then { d with gsz := lastNav, gszzl := 0 }
        else
          let totalWeightedChange : ℚ :=
            holdings.foldl (fun s h => s + ((quotes.lookup h.code).getD 0) * h.percent) 0
          let totalWeight : ℚ := holdings.foldl (fun s h => s + h.percent) 0
          if totalWeight > 0 then
            { d with gsz := lastNav * (1 + totalWeightedChange / 100 / 100),
                     gszzl := totalWeightedChange / 100,
                     source := "holdings_calc_batch" }
          else { d with gsz := lastNav, gszzl := 0 }

/-- The response assembly of `get_batch_estimate` (lines 554-561): the
results dict is keyed by fund code and the final list is rebuilt by
iterating the request in order. -/
def legacyBatchEstimate (phase : Phase) (today : Nat)
    (fetchOf : String → Option OfficialFetch) (histOf : String → List (Nat × ℚ))
    (holdingsOf : String → List Holding) (quotes : List (String × ℚ))
    (codes : List String) : List LegacyData :=
  codes.map fun c =>
    legacyBatchFund phase today (fetchOf c) (histOf c) (holdingsOf c) quotes c

/-- The per-fund dict of `FundController.batch_estimate` in
`src/backend/main.py` (the shape produced by
`fetch_realtime_estimate_direct_sync`, plus the temporary `_last_nav`
key stored in `lastNavField`). -/
structure BackendRes where
  fundcode : String
  name : String
  gsz : ℚ
  gszzl : ℚ
  dwjz : ℚ
  jzrq : Option Nat
  source : String
  gztime : String
  lastNavField : Option ℚ
  deriving DecidableEq, Repr

/-- The default payload of `fetch_realtime_estimate_direct_sync` before
the feed answers: all-zero fields and `source = "none"`. -/
def backendFetchDefault (code : String) : BackendRes :=
  ⟨code, "", 0, 0, 0, none, "none", "", none⟩

/-- One row of the ETF/LOF spot map (`fetch_etf_lof_spot_cached`). -/
structure EtfSpot where
  price : ℚ
  change : ℚ
  ty : String
  deriving DecidableEq, Repr

/-- The `official_confirmed_nav / official_confirmed_date /
official_confirmed_change` triple computed from the NAV history in
`batch_estimate` (lines 735-748). -/
def backendOfficialConfirmed (hist : List (Nat × ℚ)) : ℚ × Option Nat × ℚ :=
  match hist.getLast? with
  | none => (0, none, 0)
  | some (dt, nav) =>
      let change : ℚ :=
        if 1 < hist.length then
          let prevNav := (hist.getD (hist.length - 2) (0, 0)).2
          if prevNav > 0 then (nav - prevNav) / prevNav * 100 else 0
        else 0
      (nav, some dt, change)

/-- The `use_history_as_official` test (lines 754-757): the history NAV is
positive, and its date is today or strictly newer than the feed's `jzrq`
(an empty feed date disables the second alternative). -/
def backendUseHistoryAsOfficial (estJzrq : Option Nat) (hist : List (Nat × ℚ))
    (today : Nat) : Bool :=
  let c := backendOfficialConfirmed hist
  match c.2.1 with
  | some d =>
      decide (0 < c.1) &&
        (decide (d = today) ||
          match estJzrq with
          | some j => decide (j < d)
          | none => false)
  | none => false

/-- `is_official_updated` after steps 1 and 2: the history override fired,
or the post-market daily map has an entry for the fund. -/
def backendIsOfficialUpdated (estJzrq : Option Nat) (hist : List (Nat × ℚ))
    (dailyEm : Option (ℚ × ℚ)) (today : Nat) : Bool :=
  backendUseHistoryAsOfficial estJzrq hist today || dailyEm.isSome

/-- Python's `'realtime' in res.get('source','')` test. -/
def containsRealtime (s : String) : Bool :=
  s.toList.tails.any fun t => "realtime".toList.isPrefixOf t

/-- Stage 1 of `batch_estimate` for one fund (lines 729-805): the history
override, the post-market daily override, the ETF/LOF realtime overwrite,
the `_last_nav` stash, and the decision whether the fund needs the
holdings computation (`calc_needed`). -/
def backendStage1 (est : BackendRes) (hist : List (Nat × ℚ)) (dailyEm : Option (ℚ × ℚ))
    (etfLof : Option EtfSpot) (phase : Phase) (today : Nat) : BackendRes × Bool :=
  let c := backendOfficialConfirmed hist
  let navC := c.1
  let dateC := c.2.1
  let changeC := c.2.2
  let res0 :=
    if backendUseHistoryAsOfficial est.jzrq hist today then
      { est with dwjz := navC, gsz := navC, gszzl := changeC,
                 source := "official_history_ak", gztime := "已更新(官方)", jzrq := dateC }
    else
      match dailyEm with
      | some (nav, change) =>
          { est with dwjz := nav, gsz := nav, gszzl := change,
                     source := "official_daily_em", gztime := "已更新(晚间)",
                     jzrq := some today }
      | none => est
  let updated := backendIsOfficialUpdated est.jzrq hist dailyEm today
  let res1 :=
    if updated then res0
    else
      match etfLof with
      | some spot =>
          if spot.price > 0 then
            { res0 with gsz := spot.price, gszzl := spot.change,
                        source := "realtime_" ++ spot.ty.toLower, gztime := "实时交易" }
          else res0
      | none => res0
  let lastNav := if navC > 0 then navC else est.dwjz
  if updated then (res1, false)
  else
    let res2 := { res1 with lastNavField := some lastNav }
    if res2.gsz > 0 then (res2, false)
    else if phase ≠ Phase.PRE_MARKET ∧ containsRealtime res2.source = false then (res2, true)
    else (res2, false)

/-- The market-routing of one holding's code in the stage-2 loop (lines
834-838): six digits hits the A-share map, five digits the HK map,
anything else the US map. -/
def backendLookupQuote (aMap hkMap usMap : List (String × ℚ)) (sc : String) : Option ℚ :=
  if sc.length = 6 ∧ sc.all Char.isDigit then aMap.lookup sc
  else if sc.length = 5 ∧ sc.all Char.isDigit then hkMap.lookup sc
  else usMap.lookup sc

/-- One iteration of the stage-2 accumulation loop (lines 832-841): a
holding with a quote adds `change * weight` and its weight; one with no
quote (`if sq:` false) leaves both accumulators unchanged. -/
def backendCalcStep (lookup : String → Option ℚ) (acc : ℚ × ℚ) (h : Holding) : ℚ × ℚ :=
  match lookup h.code with
  | some q => (acc.1 + q * h.percent, acc.2 + h.percent)
  | none => acc

/-- The weighted-change / covered-weight accumulation of stage 2 (lines
830-841): a holding with no quote in its market map contributes to
neither sum. -/
def backendCalcSums (holdings : List Holding) (lookup : String → Option ℚ) : ℚ × ℚ :=
  holdings.foldl (backendCalcStep lookup) (0, 0)

/-- Stage 2 of `batch_estimate` for one `calc_needed` fund (lines
826-851): skip funds with no holdings; otherwise damp the covered
weighted average by 0.95 and rescale the stashed `_last_nav`. -/
def backendApplyCalc (res : BackendRes) (holdings : List Holding)
    (aMap hkMap usMap : List (String × ℚ)) (nowStr : String) : BackendRes :=
  if holdings.isEmpty then res
  else
    let sums := backendCalcSums holdings (backendLookupQuote aMap hkMap usMap)
    let estChg : ℚ := if sums.2 > 0 then sums.1 / sums.2 * (95 / 100) else 0
    let lastN := res.lastNavField.getD 0
    if lastN > 0 then
      { res with gsz := lastN * (1 + estChg / 100), gszzl := estChg,
                 source := "holdings_calc_batch", gztime := nowStr }
    else res

/-- The full `batch_estimate` pipeline for one non-cached fund of
`src/backend/main.py`. -/
def backendEstimateFund (est : BackendRes) (hist : List (Nat × ℚ))
    (dailyEm : Option (ℚ × ℚ)) (etfLof : Option EtfSpot) (phase : Phase) (today : Nat)
    (holdings : List Holding) (aMap hkMap usMap : List (String × ℚ))
    (nowStr : String) : BackendRes :=
  let s := backendStage1 est hist dailyEm etfLof phase today
  if s.2 then backendApplyCalc s.1 holdings aMap hkMap usMap nowStr else s.1

/-- The response assembly of `FundController.batch_estimate` (lines
687-693 and 853-858): cache hits are appended while scanning the request
order, then the computed results for the missing codes are appended
afterwards; if nothing is missing the hit list is returned directly. -/
def backendBatch (codes : List String) (cache : String → Option BackendRes)
    (compute : String → BackendRes) : List BackendRes :=
  let hits := codes.filterMap cache
  let missing := codes.filter fun c => (cache c).isNone
  if missing.isEmpty then hits else hits ++ missing.map compute

/-- C6 counterexample: the claim sends every weekday 11:30-13:00 timestamp
to LUNCH_BREAK, but the legacy clock `_get_time_phase` of `src/main.py`
maps Monday 12:00 to MARKET — it has no LUNCH_BREAK phase at all. -/
theorem C6_clock_counterexample :
    legacyGetTimePhase 0 43200 = Phase.MARKET ∧ Phase.MARKET ≠ Phase.LUNCH_BREAK := by
  exact ⟨by decide, by decide⟩

/-- C6 (amended): the backend clock `AkshareService.get_time_phase`
realises the claimed five-phase map (session open 09:15); the legacy clock
`_get_time_phase` has only four phases, mapping the whole 09:30-15:00
window — including 11:30-13:00 — to MARKET. -/
theorem C6_clock_amended (weekday sec : Nat) :
    (weekday ≥ 5 → backendGetTimePhase weekday sec = Phase.WEEKEND) ∧
    (weekday < 5 → sec < 33300 → backendGetTimePhase weekday sec = Phase.PRE_MARKET) ∧
    (weekday < 5 → 33300 ≤ sec → sec < 41400 → backendGetTimePhase weekday sec = Phase.MARKET) ∧
    (weekday < 5 → 41400 ≤ sec → sec < 46800 →
      backendGetTimePhase weekday sec = Phase.LUNCH_BREAK) ∧
    (weekday < 5 → 46800 ≤ sec → sec ≤ 54000 → backendGetTimePhase weekday sec = Phase.MARKET) ∧
    (weekday < 5 → 54000 < sec → backendGetTimePhase weekday sec = Phase.POST_MARKET) ∧
    (weekday < 5 → 41400 ≤ sec → sec < 46800 → legacyGetTimePhase weekday sec = Phase.MARKET) := by
  unfold backendGetTimePhase legacyGetTimePhase
  refine ⟨?_, ?_, ?_, ?_, ?_, ?_, ?_⟩ <;> intros <;>
    split_ifs <;> first | rfl | (exfalso; omega)

/-- C6 witness: the amended clock characterisation evaluated on one
concrete timestamp per window. -/
theorem C6_clock_witness :
    backendGetTimePhase 5 0 = Phase.WEEKEND ∧
    backendGetTimePhase 0 30000 = Phase.PRE_MARKET ∧
    backendGetTimePhase 0 36000 = Phase.MARKET ∧
    backendGetTimePhase 0 43200 = Phase.LUNCH_BREAK ∧
    backendGetTimePhase 0 50000 = Phase.MARKET ∧
    backendGetTimePhase 0 60000 = Phase.POST_MARKET ∧
    legacyGetTimePhase 0 43200 = Phase.MARKET :=
  ⟨(C6_clock_amended 5 0).1 (by decide),
   (C6_clock_amended 0 30000).2.1 (by decide) (by decide),
   (C6_clock_amended 0 36000).2.2.1 (by decide) (by decide) (by decide),
   (C6_clock_amended 0 43200).2.2.2.1 (by decide) (by decide) (by decide),
   (C6_clock_amended 0 50000).2.2.2.2.1 (by decide) (by decide) (by decide),
   (C6_clock_amended 0 60000).2.2.2.2.2.1 (by decide) (by decide),
   (C6_clock_amended 0 43200).2.2.2.2.2.2 (by decide) (by decide) (by decide)⟩

/-- C10: in `CacheService.get`, `ttl = 0` returns the stored value
regardless of the entry's age and leaves the store untouched, while for
`ttl > 0` an entry strictly older than `ttl` seconds is evicted and the
read returns nothing. -/
theorem C10_cache_ttl (α : Type) (cache : String → Option (CacheEntry α))
    (key : String) (e : CacheEntry α) (ttl now : ℚ) (hk : cache key = some e) :
    (cacheGet cache key 0 now).1 = some e.data ∧
    (cacheGet cache key 0 now).2 = cache ∧
    (0 < ttl → ttl < now - e.time →
      (cacheGet cache key ttl now).1 = none ∧ (cacheGet cache key ttl now).2 key = none) := by
  refine ⟨?_, ?_, fun h1 h2 => ⟨?_, ?_⟩⟩ <;>
    simp only [cacheGet, hk]
  · simp
  · simp
  · rw [if_neg]
    push_neg
    constructor <;> linarith
  · rw [if_neg]
    · simp
    · push_neg
      constructor <;> linarith

/-- C10 witness: a concrete one-entry store, read back with `ttl = 0`
(hit despite age 90) and with `ttl = 5` (evicted). -/
theorem C10_cache_ttl_witness :
    (cacheGet (fun k => if k = "a" then some ⟨(7 : ℚ), 10⟩ else none) "a" 0 100).1
      = some 7 ∧
    (0 : ℚ) < 5 ∧ (5 : ℚ) < 100 - 10 ∧
    (cacheGet (fun k => if k = "a" then some ⟨(7 : ℚ), 10⟩ else none) "a" 5 100).1 = none ∧
    (cacheGet (fun k => if k = "a" then some ⟨(7 : ℚ), 10⟩ else none) "a" 5 100).2 "a" = none := by
  have h := C10_cache_ttl ℚ (fun k => if k = "a" then some ⟨(7 : ℚ), 10⟩ else none)
    "a" ⟨(7 : ℚ), 10⟩ 5 100 (by decide)
  have h2 := h.2.2 (by norm_num) (by norm_num)
  exact ⟨h.1, by norm_num, by norm_num, h2.1, h2.2⟩

lemma proxyFold_sound (name : String) :
    ∀ (table : List (String × String)) (acc : Option (String × String))
      (r : String × String),
      table.foldl (proxyStep name) acc = some r →
      acc = some r ∨ (r ∈ table ∧ kwMatches name r.1 = true) := by
  intro table
  induction table with
  | nil => intro acc r h; exact Or.inl h
  | cons x xs ih =>
      intro acc r h
      rw [List.foldl_cons] at h
      rcases ih (proxyStep name acc x) r h with h1 | h2
      · cases acc with
        | none =>
            simp only [proxyStep] at h1
            split at h1
            · cases h1
              exact Or.inr ⟨List.mem_cons_self _ _, by assumption⟩
            · cases h1
        | some b =>
            simp only [proxyStep] at h1
            split at h1
            · split at h1
              · cases h1
                exact Or.inr ⟨List.mem_cons_self _ _, by assumption⟩
              · exact Or.inl h1
            · exact Or.inl h1
      · exact Or.inr ⟨List.mem_cons_of_mem _ h2.1, h2.2⟩

lemma proxyStep_keeps (name : String) (b : String × String) (x : String × String) :
    ∃ c, proxyStep name (some b) x = some c ∧ b.1.length ≤ c.1.length := by
  simp only [proxyStep]
  split_ifs with hm hl
  · exact ⟨x, rfl, Nat.le_of_lt hl⟩
  · exact ⟨b, rfl, le_refl _⟩
  · exact ⟨b, rfl, le_refl _⟩

lemma proxyStep_takes (name : String) (x : String × String)
    (acc : Option (String × String)) (hm : kwMatches name x.1 = true) :
    ∃ c, proxyStep name acc x = some c ∧ x.1.length ≤ c.1.length := by
  cases acc with
  | none =>
      simp only [proxyStep]
      rw [if_pos hm]
      exact ⟨x, rfl, le_refl _⟩
  | some b =>
      simp only [proxyStep]
      rw [if_pos hm]
      by_cases hl : b.1.length < x.1.length
      · rw [if_pos hl]; exact ⟨x, rfl, le_refl _⟩
      · rw [if_neg hl]; exact ⟨b, rfl, Nat.le_of_not_lt hl⟩

lemma proxyFold_mono (name : String) :
    ∀ (table : List (String × String)) (b : String × String),
      ∃ r, table.foldl (proxyStep name) (some b) = some r ∧ b.1.length ≤ r.1.length := by
  intro table
  induction table with
  | nil => intro b; exact ⟨b, rfl, le_refl _⟩
  | cons x xs ih =>
      intro b
      obtain ⟨c, hc, hbc⟩ := proxyStep_keeps name b x
      obtain ⟨r, hr, hcr⟩ := ih c
      refine ⟨r, ?_, le_trans hbc hcr⟩
      rw [List.foldl_cons, hc]
      exact hr

lemma proxyFold_elem (name : String) :
    ∀ (table : List (String × String)) (acc : Option (String × String))
      (p : String × String),
      p ∈ table → kwMatches name p.1 = true →
      ∃ r, table.foldl (proxyStep name) acc = some r ∧ p.1.length ≤ r.1.length := by
  intro table
  induction table with
  | nil => intro acc p hp; exact absurd hp (List.not_mem_nil p)
  | cons x xs ih =>
      intro acc p hp hm
      rcases List.mem_cons.mp hp with rfl | hp2
      · obtain ⟨c, hc, hxc⟩ := proxyStep_takes name p acc hm
        obtain ⟨r, hr, hcr⟩ := proxyFold_mono name xs c
        refine ⟨r, ?_, le_trans hxc hcr⟩
        rw [List.foldl_cons, hc]
        exact hr
      · obtain ⟨r, hr, hpr⟩ := ih (proxyStep name acc x) p hp2 hm
        exact ⟨r, by rw [List.foldl_cons]; exact hr, hpr⟩

/-- C7: `ProxyResolver.resolve` (modelled from the spec, the keyword table
being absent from src/) returns a matching table row whose keyword length
dominates every other matching keyword — it never falls back to a strictly
shorter keyword — and it returns a match whenever one exists.  Determinism
holds because `proxyResolve` is a pure function of the table and name. -/
theorem C7_proxy_longest_match (table : List (String × String)) (name : String) :
    (∀ k v, proxyResolve table name = some (k, v) →
      ((k, v) ∈ table ∧ kwMatches name k = true) ∧
      ∀ p ∈ table, kwMatches name p.1 = true → p.1.length ≤ k.length) ∧
    (∀ p ∈ table, kwMatches name p.1 = true → (proxyResolve table name).isSome = true) := by
  constructor
  · intro k v h
    rcases proxyFold_sound name table none (k, v) h with h1 | h2
    · cases h1
    · refine ⟨h2, fun p hp hpm => ?_⟩
      obtain ⟨r, hr, hle⟩ := proxyFold_elem name table none p hp hpm
      rw [proxyResolve] at h
      rw [h] at hr
      cases hr
      exact hle
  · intro p hp hpm
    obtain ⟨r, hr, _⟩ := proxyFold_elem name table none p hp hpm
    rw [proxyResolve, hr]
    rfl

/-- C7 witness: on the spec's keyword table, a fund name containing both
the generic "芯片" and the longer "半导体" resolves to the longer keyword,
and "芯片"'s length is dominated. -/
theorem C7_proxy_witness :
    proxyResolve [("半导体", "X"), ("芯片", "X"), ("科技", "Y")] "示例半导体芯片基金"
      = some ("半导体", "X") ∧
    ("芯片", "X") ∈ [("半导体", "X"), ("芯片", "X"), ("科技", "Y")] ∧
    kwMatches "示例半导体芯片基金" "芯片" = true ∧
    "芯片".length ≤ "半导体".length := by
  have h := (C7_proxy_longest_match [("半导体", "X"), ("芯片", "X"), ("科技", "Y")]
    "示例半导体芯片基金").1 "半导体" "X" (by decide)
  exact ⟨by decide, by decide, by decide, h.2 ("芯片", "X") (by decide) (by decide)⟩

lemma getLast_append_pair {α : Type} (rest : List α) (a b : α) :
    (rest ++ [a, b]).getLast? = some b := by
  have h : rest ++ [a, b] = (rest ++ [a]) ++ [b] := by simp
  rw [h, List.getLast?_concat]

lemma getD_append_pair {α : Type} (rest : List α) (a b x : α) :
    (rest ++ [a, b]).getD ((rest ++ [a, b]).length - 2) x = a := by
  have hlen : (rest ++ [a, b]).length = rest.length + 2 := by simp
  rw [List.getD_eq_getElem?_getD, hlen]
  have h2 : rest.length + 2 - 2 = rest.length := by omega
  rw [h2, List.getElem?_append_right (le_refl _)]
  simp

lemma legacyProcessSingle_pre (phase : Phase) (today : Nat) (fetch : Option OfficialFetch)
    (hist : List (Nat × ℚ)) (holdings : List Holding) (quotes : List (String × ℚ))
    (code : String) (hp : phase = Phase.PRE_MARKET ∨ phase = Phase.WEEKEND) :
    legacyProcessSingle phase today fetch hist holdings quotes code =
      legacyPreWeekend (legacyHistoryFold (applyFetch (legacyDefault code) fetch) hist).1
        hist (legacyHistoryFold (applyFetch (legacyDefault code) fetch) hist).2 := by
  simp only [legacyProcessSingle]
  rw [if_pos hp]

lemma legacyHistoryFold_last (d : LegacyData) (hist : List (Nat × ℚ)) (qd : Nat) (qn : ℚ)
    (h : hist.getLast? = some (qd, qn)) :
    legacyHistoryFold d hist = ({ d with dwjz := qn, jzrq := some qd }, qn) := by
  unfold legacyHistoryFold
  rw [h]

lemma legacyPreWeekend_source (d : LegacyData) (hist : List (Nat × ℚ)) (lastNav : ℚ) :
    (legacyPreWeekend d hist lastNav).source = "real_history" := by
  simp only [legacyPreWeekend]
  split_ifs <;> rfl

lemma legacyPreWeekend_gsz (d : LegacyData) (hist : List (Nat × ℚ)) (lastNav : ℚ) :
    (legacyPreWeekend d hist lastNav).gsz = d.dwjz := by
  simp only [legacyPreWeekend]
  split_ifs <;> rfl

lemma legacyPreWeekend_dwjz (d : LegacyData) (hist : List (Nat × ℚ)) (lastNav : ℚ) :
    (legacyPreWeekend d hist lastNav).dwjz = d.dwjz := by
  simp only [legacyPreWeekend]
  split_ifs <;> rfl

lemma legacyPreWeekend_gszzl_short (d : LegacyData) (hist : List (Nat × ℚ)) (lastNav : ℚ)
    (h : hist.length ≤ 1) : (legacyPreWeekend d hist lastNav).gszzl = 0 := by
  unfold legacyPreWeekend
  rw [if_neg (by omega)]

lemma legacyPreWeekend_gszzl_pair (d : LegacyData) (rest : List (Nat × ℚ))
    (p q : Nat × ℚ) (lastNav : ℚ) (hp : 0 < p.2) :
    (legacyPreWeekend d (rest ++ [p, q]) lastNav).gszzl = (lastNav - p.2) / p.2 * 100 := by
  simp only [legacyPreWeekend, getD_append_pair]
  rw [if_pos (show 2 ≤ (rest ++ [p, q]).length by
        simp only [List.length_append, List.length_cons, List.length_nil]; omega),
      if_pos hp]

/-- C1 counterexample: in PRE_MARKET phase with a two-row NAV history
`[(d1, 1.0), (d2, 1.1)]`, the legacy estimator returns
`estimatedChangePercent = 10`, the realized change of the last confirmed
day, not `0` as the claim requires. -/
theorem C1_pre_weekend_counterexample :
    (legacyProcessSingle Phase.PRE_MARKET 3 none [(1, 1), (2, 11/10)] [] [] "f").gszzl = 10 ∧
    (legacyProcessSingle Phase.PRE_MARKET 3 none [(1, 1), (2, 11/10)] [] [] "f").source
      = "real_history" ∧
    (10 : ℚ) ≠ 0 := by
  refine ⟨?_, ?_, by norm_num⟩ <;>
    norm_num [legacyProcessSingle, legacyHistoryFold, applyFetch, legacyDefault,
      legacyPreWeekend]

/-- C1 (amended): in WEEKEND or PRE_MARKET phase the legacy estimator
returns source "real_history" (the official/static tier), an estimated
value equal to the surfaced confirmed NAV, and an estimated change equal
to the realized change between the last two confirmed NAVs — zero only
when fewer than two history rows exist. -/
theorem C1_pre_weekend_amended (phase : Phase) (today : Nat)
    (fetch : Option OfficialFetch) (hist : List (Nat × ℚ)) (holdings : List Holding)
    (quotes : List (String × ℚ)) (code : String) (r : LegacyData)
    (hp : phase = Phase.PRE_MARKET ∨ phase = Phase.WEEKEND)
    (hr : r = legacyProcessSingle phase today fetch hist holdings quotes code) :
    r.source = "real_history" ∧
    r.gsz = r.dwjz ∧
    (∀ rest qd qn, hist = rest ++ [(qd, qn)] → r.gsz = qn) ∧
    (hist.length ≤ 1 → r.gszzl = 0) ∧
    (∀ rest p qd qn, hist = rest ++ [p, (qd, qn)] → 0 < p.2 →
      r.gszzl = (qn - p.2) / p.2 * 100) := by
  subst hr
  rw [legacyProcessSingle_pre phase today fetch hist holdings quotes code hp]
  refine ⟨legacyPreWeekend_source _ _ _, ?_, ?_, ?_, ?_⟩
  · rw [legacyPreWeekend_gsz, legacyPreWeekend_dwjz]
  · intro rest qd qn hq
    subst hq
    rw [legacyPreWeekend_gsz,
        legacyHistoryFold_last _ _ qd qn (List.getLast?_concat rest)]
  · intro hlen
    exact legacyPreWeekend_gszzl_short _ _ _ hlen
  · intro rest p qd qn hq hp2
    subst hq
    rw [legacyHistoryFold_last _ _ qd qn (getLast_append_pair rest p (qd, qn)),
        legacyPreWeekend_gszzl_pair _ _ _ _ _ hp2]

/-- C1 witness: the amended statement evaluated on the WEEKEND phase with
a concrete two-row history. -/
theorem C1_pre_weekend_witness :
    (legacyProcessSingle Phase.WEEKEND 9 none [(5, 2), (6, 3)] [] [] "w").source
      = "real_history" ∧
    (legacyProcessSingle Phase.WEEKEND 9 none [(5, 2), (6, 3)] [] [] "w").gsz
      = (legacyProcessSingle Phase.WEEKEND 9 none [(5, 2), (6, 3)] [] [] "w").dwjz ∧
    (legacyProcessSingle Phase.WEEKEND 9 none [(5, 2), (6, 3)] [] [] "w").gszzl
      = ((3 : ℚ) - 2) / 2 * 100 := by
  have h := C1_pre_weekend_amended Phase.WEEKEND 9 none [(5, 2), (6, 3)] [] [] "w"
    (legacyProcessSingle Phase.WEEKEND 9 none [(5, 2), (6, 3)] [] [] "w")
    (Or.inr rfl) rfl
  exact ⟨h.1, h.2.1, h.2.2.2.2 [] (5, 2) 6 3 rfl (by norm_num)⟩

lemma legacyProcessSingle_market (today : Nat) (fetch : Option OfficialFetch)
    (hist : List (Nat × ℚ)) (holdings : List Holding) (quotes : List (String × ℚ))
    (code : String) :
    legacyProcessSingle Phase.MARKET today fetch hist holdings quotes code =
      (if (legacyHistoryFold (applyFetch (legacyDefault code) fetch) hist).1.gsz > 0 ∧
          (legacyHistoryFold (applyFetch (legacyDefault code) fetch) hist).1.gsz ≠
            (legacyHistoryFold (applyFetch (legacyDefault code) fetch) hist).2 then
        (legacyHistoryFold (applyFetch (legacyDefault code) fetch) hist).1
      else
        match legacyGetCalcResult holdings quotes
            (legacyHistoryFold (applyFetch (legacyDefault code) fetch) hist).2 with
        | some (g, z) =>
            { (legacyHistoryFold (applyFetch (legacyDefault code) fetch) hist).1 with
                gsz := g, gszzl := z, source := "holdings_calc" }
        | none =>
            { (legacyHistoryFold (applyFetch (legacyDefault code) fetch) hist).1 with
                gsz := (legacyHistoryFold (applyFetch (legacyDefault code) fetch) hist).2,
                gszzl := 0 }) := rfl

lemma legacyProcessSingle_post (today : Nat) (fetch : Option OfficialFetch)
    (hist : List (Nat × ℚ)) (holdings : List Holding) (quotes : List (String × ℚ))
    (code : String) :
    legacyProcessSingle Phase.POST_MARKET today fetch hist holdings quotes code =
      legacyPostMarket (legacyHistoryFold (applyFetch (legacyDefault code) fetch) hist).1
        hist (legacyHistoryFold (applyFetch (legacyDefault code) fetch) hist).2
        holdings quotes today := rfl

lemma applyFetch_source (d : LegacyData) (f : Option OfficialFetch) :
    (applyFetch d f).source = d.source := by
  cases f <;> rfl

lemma legacyHistoryFold_fst_source (d : LegacyData) (hist : List (Nat × ℚ)) :
    (legacyHistoryFold d hist).1.source = d.source := by
  rcases h : hist.getLast? with _ | ⟨a, b⟩ <;> simp [legacyHistoryFold, h]

lemma backendStage1_accept_flag (est : BackendRes) (hist : List (Nat × ℚ))
    (dailyEm : Option (ℚ × ℚ)) (etfLof : Option EtfSpot) (phase : Phase) (today : Nat)
    (h : 0 < (backendStage1 est hist dailyEm etfLof phase today).1.gsz) :
    (backendStage1 est hist dailyEm etfLof phase today).2 = false := by
  simp only [backendStage1] at h ⊢
  split_ifs at h ⊢ <;> first | rfl | simp_all

/-- C3 counterexample: during MARKET the legacy estimator accepts the
official feed result purely because its estimated value is positive and
differs from the confirmed NAV — here the feed's change percent is `0`,
so `|estimatedChangePercent| > 0.001` fails and the claim demands
demotion to the next tier, yet the result keeps the feed values and
source "official" even though the holdings tier was available. -/
theorem C3_validity_counterexample :
    (legacyProcessSingle Phase.MARKET 2
        (some ⟨none, none, some (21/20), some 0, some 1, some 1⟩)
        [(1, 1)] [⟨"X", 50⟩] [("X", 2)] "f").source = "official" ∧
    (legacyProcessSingle Phase.MARKET 2
        (some ⟨none, none, some (21/20), some 0, some 1, some 1⟩)
        [(1, 1)] [⟨"X", 50⟩] [("X", 2)] "f").gszzl = 0 ∧
    (legacyProcessSingle Phase.MARKET 2
        (some ⟨none, none, some (21/20), some 0, some 1, some 1⟩)
        [(1, 1)] [⟨"X", 50⟩] [("X", 2)] "f").gsz = 21/20 ∧
    legacyGetCalcResult [⟨"X", 50⟩] [("X", 2)] 1 ≠ none := by
  have hc : legacyGetCalcResult [⟨"X", 50⟩] [("X", 2)] 1 = some (101/100, 1) := by
    norm_num [legacyGetCalcResult, List.lookup]
  refine ⟨?_, ?_, ?_, by rw [hc]; exact fun h => Option.noConfusion h⟩ <;>
    (rw [legacyProcessSingle_market];
     norm_num [legacyHistoryFold, applyFetch, legacyDefault])

/-- C3 (amended): the legacy MARKET acceptance test is
`estimatedValue > 0 ∧ estimatedValue ≠ lastConfirmedNav` — a condition on
the feed's estimated value, with no ε-threshold on the change percent —
and only on its failure does the pipeline proceed to the holdings tier;
in the backend, any fund whose estimated value is positive after the
override steps is never scheduled for the holdings computation,
regardless of its change percent. -/
theorem C3_validity_amended :
    (∀ (today : Nat) (fetch : Option OfficialFetch) (hist : List (Nat × ℚ))
        (holdings : List Holding) (quotes : List (String × ℚ)) (code : String)
        (d : LegacyData) (lastNav : ℚ) (r : LegacyData),
      d = (legacyHistoryFold (applyFetch (legacyDefault code) fetch) hist).1 →
      lastNav = (legacyHistoryFold (applyFetch (legacyDefault code) fetch) hist).2 →
      r = legacyProcessSingle Phase.MARKET today fetch hist holdings quotes code →
      (d.gsz > 0 ∧ d.gsz ≠ lastNav → r = d) ∧
      (¬(d.gsz > 0 ∧ d.gsz ≠ lastNav) →
        (∀ g z, legacyGetCalcResult holdings quotes lastNav = some (g, z) →
          r = { d with gsz := g, gszzl := z, source := "holdings_calc" }) ∧
        (legacyGetCalcResult holdings quotes lastNav = none →
          r = { d with gsz := lastNav, gszzl := 0 }))) ∧
    (∀ (est : BackendRes) (hist : List (Nat × ℚ)) (dailyEm : Option (ℚ × ℚ))
        (etfLof : Option EtfSpot) (phase : Phase) (today : Nat),
      0 < (backendStage1 est hist dailyEm etfLof phase today).1.gsz →
      (backendStage1 est hist dailyEm etfLof phase today).2 = false) := by
  constructor
  · intro today fetch hist holdings quotes code d lastNav r hd hl hr
    subst hd; subst hl; subst hr
    rw [legacyProcessSingle_market]
    constructor
    · intro hv
      rw [if_pos hv]
    · intro hv
      rw [if_neg hv]
      constructor
      · intro g z hc
        rw [hc]
      · intro hc
        rw [hc]
  · intro est hist dailyEm etfLof phase today h
    exact backendStage1_accept_flag est hist dailyEm etfLof phase today h

/-- C3 witness: both halves of the amended statement at concrete inputs —
a feed value `1.05` against confirmed NAV `1` is accepted unchanged, and
a backend stage-1 result with positive value is not scheduled for the
holdings computation. -/
theorem C3_validity_witness :
    legacyProcessSingle Phase.MARKET 2
        (some ⟨none, none, some (21/20), some (1/2), some 1, some 1⟩)
        [(1, 1)] [] [] "w"
      = (legacyHistoryFold (applyFetch (legacyDefault "w")
          (some ⟨none, none, some (21/20), some (1/2), some 1, some 1⟩)) [(1, 1)]).1 ∧
    (backendStage1 ⟨"w", "", 2, 0, 0, none, "none", "", none⟩ [(7, 2)] none none
        Phase.MARKET 9).2 = false := by
  have h1 := ((C3_validity_amended).1 2
    (some ⟨none, none, some (21/20), some (1/2), some 1, some 1⟩)
    [(1, 1)] [] [] "w" _ _ _ rfl rfl rfl).1
  have h2 := (C3_validity_amended).2 ⟨"w", "", 2, 0, 0, none, "none", "", none⟩
    [(7, 2)] none none Phase.MARKET 9
  refine ⟨h1 ?_, h2 ?_⟩
  · constructor <;>
      norm_num [legacyHistoryFold, applyFetch, legacyDefault]
  · norm_num [backendStage1, backendOfficialConfirmed, backendUseHistoryAsOfficial,
      backendIsOfficialUpdated]

/-- C5 counterexample: a MARKET-phase fund with no feed data and no
holdings gets the confirmed NAV with zero change, but its source field
stays "official" — exactly the marker a genuinely accepted official feed
result carries (second conjunct) — so no explicit stale/"no estimate"
marker distinguishes the two. -/
theorem C5_stale_counterexample :
    (legacyProcessSingle Phase.MARKET 9 none [(5, 6/5)] [] [] "f").source = "official" ∧
    (legacyProcessSingle Phase.MARKET 9 none [(5, 6/5)] [] [] "f").gsz = 6/5 ∧
    (legacyProcessSingle Phase.MARKET 9 none [(5, 6/5)] [] [] "f").gszzl = 0 ∧
    (legacyProcessSingle Phase.MARKET 9
        (some ⟨none, none, some (13/10), some (5/4), some (6/5), some 5⟩)
        [(5, 6/5)] [] [] "g").source = "official" := by
  refine ⟨?_, ?_, ?_, ?_⟩ <;>
    (rw [legacyProcessSingle_market];
     norm_num [legacyHistoryFold, applyFetch, legacyDefault, legacyGetCalcResult])

/-- C5 (amended): when the official feed is invalid and the holdings
computation yields nothing, the legacy MARKET path still returns a
complete snapshot surfacing the confirmed NAV with zero change — never an
error — but its source field keeps the default value "official": there is
no dedicated stale/"no estimate" marker distinguishing it from an
accepted official result. -/
theorem C5_stale_amended (today : Nat) (fetch : Option OfficialFetch)
    (hist : List (Nat × ℚ)) (holdings : List Holding) (quotes : List (String × ℚ))
    (code : String) (d : LegacyData) (lastNav : ℚ) (r : LegacyData)
    (hd : d = (legacyHistoryFold (applyFetch (legacyDefault code) fetch) hist).1)
    (hl : lastNav = (legacyHistoryFold (applyFetch (legacyDefault code) fetch) hist).2)
    (hv : ¬(d.gsz > 0 ∧ d.gsz ≠ lastNav))
    (hc : legacyGetCalcResult holdings quotes lastNav = none)
    (hr : r = legacyProcessSingle Phase.MARKET today fetch hist holdings quotes code) :
    r.gsz = lastNav ∧ r.gszzl = 0 ∧ r.source = "official" := by
  subst hd; subst hl; subst hr
  rw [legacyProcessSingle_market, if_neg hv, hc]
  refine ⟨rfl, rfl, ?_⟩
  show (legacyHistoryFold (applyFetch (legacyDefault code) fetch) hist).1.source = "official"
  rw [legacyHistoryFold_fst_source, applyFetch_source]
  rfl

/-- C5 witness: the amended statement at a concrete input (failed feed,
no holdings). -/
theorem C5_stale_witness :
    (legacyProcessSingle Phase.MARKET 9 none [(5, 7/5)] [] [] "w").gsz = 7/5 ∧
    (legacyProcessSingle Phase.MARKET 9 none [(5, 7/5)] [] [] "w").gszzl = 0 ∧
    (legacyProcessSingle Phase.MARKET 9 none [(5, 7/5)] [] [] "w").source = "official" := by
  have h := C5_stale_amended 9 none [(5, 7/5)] [] [] "w" _ _ _ rfl rfl
    (by norm_num [legacyHistoryFold, applyFetch, legacyDefault])
    (by norm_num [legacyGetCalcResult]) rfl
  exact ⟨by rw [h.1]; norm_num [legacyHistoryFold], h.2.1, h.2.2⟩

lemma backendOfficialConfirmed_last (hist : List (Nat × ℚ)) (qd : Nat) (qn : ℚ)
    (h : hist.getLast? = some (qd, qn)) :
    backendOfficialConfirmed hist =
      (qn, some qd,
        if 1 < hist.length then
          if (hist.getD (hist.length - 2) (0, 0)).2 > 0 then
            (qn - (hist.getD (hist.length - 2) (0, 0)).2) /
              (hist.getD (hist.length - 2) (0, 0)).2 * 100
          else 0
        else 0) := by
  simp [backendOfficialConfirmed, h]

lemma backendUseHistory_today (estJzrq : Option Nat) (hist : List (Nat × ℚ))
    (today : Nat) (qn : ℚ) (h : hist.getLast? = some (today, qn)) (hq : 0 < qn) :
    backendUseHistoryAsOfficial estJzrq hist today = true := by
  simp [backendUseHistoryAsOfficial, backendOfficialConfirmed_last hist today qn h, hq]

lemma backendStage1_useHistory (est : BackendRes) (hist : List (Nat × ℚ))
    (dailyEm : Option (ℚ × ℚ)) (etfLof : Option EtfSpot) (phase : Phase) (today : Nat)
    (hu : backendUseHistoryAsOfficial est.jzrq hist today = true) :
    backendStage1 est hist dailyEm etfLof phase today =
      ({ est with dwjz := (backendOfficialConfirmed hist).1,
                  gsz := (backendOfficialConfirmed hist).1,
                  gszzl := (backendOfficialConfirmed hist).2.2,
                  source := "official_history_ak", gztime := "已更新(官方)",
                  jzrq := (backendOfficialConfirmed hist).2.1 }, false) := by
  simp [backendStage1, backendIsOfficialUpdated, hu]

/-- C2 counterexample: a fund whose confirmed NAV date equals today
(`jzrq = some 2 = today`) resolved during MARKET by the legacy estimator
returns the official feed's estimate (`source = "official"`,
change `1.5`), not the true realized change `10` computed from the
confirmed NAV `1.1` against the previous NAV `1.0` — the today-override
is not applied in MARKET phase. -/
theorem C2_today_counterexample :
    (legacyProcessSingle Phase.MARKET 2
        (some ⟨none, none, some 2, some (3/2), some 1, some 2⟩)
        [(1, 1), (2, 11/10)] [] [] "f").jzrq = some 2 ∧
    (legacyProcessSingle Phase.MARKET 2
        (some ⟨none, none, some 2, some (3/2), some 1, some 2⟩)
        [(1, 1), (2, 11/10)] [] [] "f").source = "official" ∧
    (legacyProcessSingle Phase.MARKET 2
        (some ⟨none, none, some 2, some (3/2), some 1, some 2⟩)
        [(1, 1), (2, 11/10)] [] [] "f").gszzl = 3/2 ∧
    ((11/10 : ℚ) - 1) / 1 * 100 = 10 ∧
    (3/2 : ℚ) ≠ 10 := by
  refine ⟨?_, ?_, ?_, by norm_num, by norm_num⟩ <;>
    (rw [legacyProcessSingle_market];
     norm_num [legacyHistoryFold, applyFetch, legacyDefault])

/-- C2 (amended): the today-NAV override holds in the backend batch
estimator — a positive confirmed NAV dated today yields
`source = "official_history_ak"` with the realized change, whatever the
phase and the feed/daily/ETF/holdings inputs — while in the legacy
single-fund estimator it only takes effect in the POST_MARKET phase. -/
theorem C2_today_override_amended :
    (∀ (est : BackendRes) (hist : List (Nat × ℚ)) (dailyEm : Option (ℚ × ℚ))
        (etfLof : Option EtfSpot) (phase : Phase) (today : Nat) (nav : ℚ)
        (holdings : List Holding) (aMap hkMap usMap : List (String × ℚ))
        (nowStr : String) (r : BackendRes),
      hist.getLast? = some (today, nav) → 0 < nav →
      r = backendEstimateFund est hist dailyEm etfLof phase today holdings
            aMap hkMap usMap nowStr →
      r.source = "official_history_ak" ∧ r.gsz = nav ∧ r.dwjz = nav ∧
        r.jzrq = some today ∧
        (∀ rest p, hist = rest ++ [p, (today, nav)] → p.2 > 0 →
          r.gszzl = (nav - p.2) / p.2 * 100)) ∧
    (∀ (fetch : Option OfficialFetch) (holdings : List Holding)
        (quotes : List (String × ℚ)) (code : String) (today dp : Nat) (p nav : ℚ)
        (rest : List (Nat × ℚ)) (r : LegacyData),
      p > 0 → nav > 0 →
      r = legacyProcessSingle Phase.POST_MARKET today fetch
            (rest ++ [(dp, p), (today, nav)]) holdings quotes code →
      r.source = "real_updated" ∧ r.gsz = nav ∧ r.gszzl = (nav - p) / p * 100) := by
  constructor
  · intro est hist dailyEm etfLof phase today nav holdings aMap hkMap usMap nowStr r
      hL hnav hr
    have hu := backendUseHistory_today est.jzrq hist today nav hL hnav
    have hc := backendOfficialConfirmed_last hist today nav hL
    subst hr
    simp only [backendEstimateFund, backendStage1_useHistory est hist dailyEm etfLof
      phase today hu]
    refine ⟨rfl, ?_, ?_, ?_, ?_⟩
    · show (backendOfficialConfirmed hist).1 = nav
      rw [hc]
    · show (backendOfficialConfirmed hist).1 = nav
      rw [hc]
    · show (backendOfficialConfirmed hist).2.1 = some today
      rw [hc]
    · intro rest pp hq hp
      show (backendOfficialConfirmed hist).2.2 = (nav - pp.2) / pp.2 * 100
      subst hq
      rw [hc]
      simp only [getD_append_pair]
      rw [if_pos (show 1 < (rest ++ [pp, (today, nav)]).length by
            simp only [List.length_append, List.length_cons, List.length_nil]; omega),
          if_pos hp]
  · intro fetch holdings quotes code today dp p nav rest r hp hnav hr
    subst hr
    rw [legacyProcessSingle_post,
        legacyHistoryFold_last (applyFetch (legacyDefault code) fetch)
          (rest ++ [(dp, p), (today, nav)]) today nav
          (getLast_append_pair rest (dp, p) (today, nav))]
    simp only [legacyPostMarket, getLast_append_pair, getD_append_pair]
    have hlen : 2 ≤ (rest ++ [(dp, p), (today, nav)]).length := by
      simp only [List.length_append, List.length_cons, List.length_nil]; omega
    simp only [if_true, if_pos hlen]
    rw [if_pos (And.intro hp hnav)]
    exact ⟨rfl, rfl, rfl⟩

/-- C2 witness: the amended statement at concrete inputs — a backend fund
with history `[(3,1),(9,2)]` on day 9 resolves official with realized
change 100, and a legacy POST_MARKET fund with history `[(4,1),(9,2)]`
resolves "real_updated". -/
theorem C2_today_override_witness :
    (backendEstimateFund (backendFetchDefault "b") [(3, 1), (9, 2)] none none
        Phase.MARKET 9 [] [] [] [] "t").source = "official_history_ak" ∧
    (backendEstimateFund (backendFetchDefault "b") [(3, 1), (9, 2)] none none
        Phase.MARKET 9 [] [] [] [] "t").gsz = 2 ∧
    (backendEstimateFund (backendFetchDefault "b") [(3, 1), (9, 2)] none none
        Phase.MARKET 9 [] [] [] [] "t").gszzl = ((2 : ℚ) - 1) / 1 * 100 ∧
    (legacyProcessSingle Phase.POST_MARKET 9 none [(4, 1), (9, 2)] [] [] "w").source
      = "real_updated" ∧
    (legacyProcessSingle Phase.POST_MARKET 9 none [(4, 1), (9, 2)] [] [] "w").gsz = 2 := by
  have hb := (C2_today_override_amended).1 (backendFetchDefault "b") [(3, 1), (9, 2)]
    none none Phase.MARKET 9 2 [] [] [] [] "t" _ rfl (by norm_num) rfl
  have hl := (C2_today_override_amended).2 none [] [] "w" 9 4 1 2 [] _
    (by norm_num) (by norm_num) rfl
  exact ⟨hb.1, hb.2.1, hb.2.2.2.2 [] (3, 1) rfl (by norm_num), hl.1, hl.2.1⟩

lemma backendCalcStep_none (lookup : String → Option ℚ) (acc : ℚ × ℚ) (h : Holding)
    (hn : lookup h.code = none) : backendCalcStep lookup acc h = acc := by
  simp [backendCalcStep, hn]

/-- C4 counterexample: on the spec's own example — holdings
`[(A,40%,+2%), (B,20%,-1%)]`, both quotes available,
`lastConfirmedNav = 1.000` — the cited `get_calc_result` of `src/main.py`
returns `estimatedChangePercent = 0.6` and `estimatedValue = 1.006`
(`(40*2 + 20*(-1)) / 100`, no damping), not `0.95` and `1.0095`. -/
theorem C4_holdings_counterexample :
    legacyGetCalcResult [⟨"A", 40⟩, ⟨"B", 20⟩] [("A", 2), ("B", -1)] 1
      = some (503/500, 3/5) ∧
    (3/5 : ℚ) ≠ 95/100 ∧ (503/500 : ℚ) ≠ 10095/10000 := by
  have hlA : List.lookup "A" [("A", (2 : ℚ)), ("B", -1)] = some 2 := rfl
  have hlB : List.lookup "B" [("A", (2 : ℚ)), ("B", -1)] = some (-1) := rfl
  refine ⟨?_, by norm_num, by norm_num⟩
  norm_num [legacyGetCalcResult, hlA, hlB]

/-- C4 (amended): the backend stage-2 extrapolation behaves as claimed —
holdings without a quote are excluded from both accumulators, and the
spec example yields change `0.95` and value `1.0095`, with an extra
uncovered holding leaving the result unchanged — while the legacy
`get_calc_result` zero-defaults missing quotes, divides by the constant
100 instead of the covered weight, applies no damping, and returns
`0.6` / `1.006` on the same example. -/
theorem C4_holdings_amended :
    (∀ (lookup : String → Option ℚ) (pre post : List Holding) (h : Holding),
      lookup h.code = none →
      backendCalcSums (pre ++ h :: post) lookup = backendCalcSums (pre ++ post) lookup) ∧
    (backendApplyCalc ⟨"f", "", 0, 0, 0, none, "none", "", some 1⟩
        [⟨"A", 40⟩, ⟨"B", 20⟩] [] [] [("A", 2), ("B", -1)] "t").gszzl = 95/100 ∧
    (backendApplyCalc ⟨"f", "", 0, 0, 0, none, "none", "", some 1⟩
        [⟨"A", 40⟩, ⟨"B", 20⟩] [] [] [("A", 2), ("B", -1)] "t").gsz = 10095/10000 ∧
    (backendApplyCalc ⟨"f", "", 0, 0, 0, none, "none", "", some 1⟩
        [⟨"A", 40⟩, ⟨"B", 20⟩, ⟨"C", 40⟩] [] [] [("A", 2), ("B", -1)] "t").gszzl
      = 95/100 ∧
    legacyGetCalcResult [⟨"A", 40⟩, ⟨"B", 20⟩] [("A", 2), ("B", -1)] 1
      = some (503/500, 3/5) := by
  have hqA : backendLookupQuote [] [] [("A", 2), ("B", -1)] "A" = some 2 := rfl
  have hqB : backendLookupQuote [] [] [("A", 2), ("B", -1)] "B" = some (-1) := rfl
  have hqC : backendLookupQuote [] [] [("A", 2), ("B", -1)] "C" = none := rfl
  refine ⟨?_, ?_, ?_, ?_, ?_⟩
  · intro lookup pre post h hn
    unfold backendCalcSums
    rw [List.foldl_append, List.foldl_append, List.foldl_cons,
        backendCalcStep_none lookup _ h hn]
  · norm_num [backendApplyCalc, backendCalcSums, backendCalcStep, hqA, hqB]
  · norm_num [backendApplyCalc, backendCalcSums, backendCalcStep, hqA, hqB]
  · norm_num [backendApplyCalc, backendCalcSums, backendCalcStep, hqA, hqB, hqC]
  · have hlA : List.lookup "A" [("A", (2 : ℚ)), ("B", -1)] = some 2 := rfl
    have hlB : List.lookup "B" [("A", (2 : ℚ)), ("B", -1)] = some (-1) := rfl
    norm_num [legacyGetCalcResult, hlA, hlB]

/-- C4 witness: the exclusion clause of the amended statement at a
concrete input — a lone holding with no quote contributes exactly as the
empty holdings list. -/
theorem C4_holdings_witness :
    backendCalcSums [⟨"Z", 10⟩] (fun _ => none) = backendCalcSums [] (fun _ => none) :=
  (C4_holdings_amended).1 (fun _ => none) [] [] ⟨"Z", 10⟩ rfl

/-- C8 counterexample: requesting `["A", "B"]` from the backend batch
estimator when only "B" is cached returns the snapshots in order
`["B", "A"]` — cache hits first, then computed misses — not the request
order `["A", "B"]`. -/
theorem C8_order_counterexample :
    (backendBatch ["A", "B"]
        (fun c => if c = "B" then some (backendFetchDefault "B") else none)
        backendFetchDefault).map BackendRes.fundcode = ["B", "A"] ∧
    (["B", "A"] : List String) ≠ ["A", "B"] := by
  exact ⟨rfl, by decide⟩

/-- C8 (amended): the legacy batch endpoint returns the i-th snapshot for
the i-th requested id; the backend batch endpoint instead returns all
cache hits (in request order) followed by all computed misses (in request
order), so it preserves the request order only for uniform batches — in
particular whenever no fund is served from cache. -/
theorem C8_order_amended :
    (∀ (phase : Phase) (today : Nat) (fetchOf : String → Option OfficialFetch)
        (histOf : String → List (Nat × ℚ)) (holdingsOf : String → List Holding)
        (quotes : List (String × ℚ)) (codes : List String) (i : Nat),
      (legacyBatchEstimate phase today fetchOf histOf holdingsOf quotes codes)[i]? =
        (codes[i]?).map fun c =>
          legacyBatchFund phase today (fetchOf c) (histOf c) (holdingsOf c) quotes c) ∧
    (∀ (codes : List String) (cache : String → Option BackendRes)
        (compute : String → BackendRes),
      backendBatch codes cache compute =
        codes.filterMap cache ++
          (codes.filter fun c => (cache c).isNone).map compute) ∧
    (∀ (codes : List String) (cache : String → Option BackendRes)
        (compute : String → BackendRes),
      (∀ c ∈ codes, cache c = none) →
      backendBatch codes cache compute = codes.map compute) := by
  have hsplit : ∀ (codes : List String) (cache : String → Option BackendRes)
      (compute : String → BackendRes),
      backendBatch codes cache compute =
        codes.filterMap cache ++
          (codes.filter fun c => (cache c).isNone).map compute := by
    intro codes cache compute
    unfold backendBatch
    by_cases h : (codes.filter fun c => (cache c).isNone).isEmpty
    · rw [if_pos h]
      rw [List.isEmpty_iff] at h
      rw [h]
      simp
    · rw [if_neg h]
  refine ⟨?_, hsplit, ?_⟩
  · intro phase today fetchOf histOf holdingsOf quotes codes i
    simp only [legacyBatchEstimate, List.getElem?_map]
  · intro codes cache compute hall
    rw [hsplit]
    have h1 : codes.filterMap cache = [] :=
      List.filterMap_eq_nil_iff.mpr fun a ha => hall a ha
    have h2 : (codes.filter fun c => (cache c).isNone) = codes :=
      List.filter_eq_self.mpr fun a ha => by simp [hall a ha]
    rw [h1, h2, List.nil_append]

/-- C8 witness: the amended statement at concrete inputs — an all-miss
backend batch comes back in request order, and the legacy batch's first
slot holds the first requested fund's snapshot. -/
theorem C8_order_witness :
    backendBatch ["A", "B"] (fun _ => none) backendFetchDefault
      = ["A", "B"].map backendFetchDefault ∧
    (legacyBatchEstimate Phase.MARKET 1 (fun _ => none) (fun _ => [])
        (fun _ => []) [] ["x", "y"])[0]? =
      some (legacyBatchFund Phase.MARKET 1 none [] [] [] "x") := by
  refine ⟨(C8_order_amended).2.2 ["A", "B"] (fun _ => none) backendFetchDefault
    (fun c _ => rfl), ?_⟩
  have h := (C8_order_amended).1 Phase.MARKET 1 (fun _ => none) (fun _ => [])
    (fun _ => []) [] ["x", "y"] 0
  rw [h]
  rfl

lemma backendStage1_lastNav (est : BackendRes) (hist : List (Nat × ℚ))
    (dailyEm : Option (ℚ × ℚ)) (etfLof : Option EtfSpot) (phase : Phase) (today : Nat)
    (hu : backendIsOfficialUpdated est.jzrq hist dailyEm today = false) :
    (backendStage1 est hist dailyEm etfLof phase today).1.lastNavField =
      some (if (backendOfficialConfirmed hist).1 > 0
        then (backendOfficialConfirmed hist).1 else est.dwjz) := by
  simp only [backendStage1, hu, Bool.false_eq_true, if_false]
  split_ifs <;> rfl

lemma backendApplyCalc_lastNav (res : BackendRes) (holdings : List Holding)
    (aMap hkMap usMap : List (String × ℚ)) (nowStr : String) :
    (backendApplyCalc res holdings aMap hkMap usMap nowStr).lastNavField =
      res.lastNavField := by
  simp only [backendApplyCalc]
  split_ifs <;> rfl

/-- C9: every backend fund that is not resolved as officially updated
(neither the history override nor the post-market daily override fired)
carries the internal `_last_nav` key — holding the confirmed NAV, or the
feed's `dwjz` when the history is empty — in the snapshot returned (and
cached) by `batch_estimate`; no later step strips it. -/
theorem C9_last_nav_retained (est : BackendRes) (hist : List (Nat × ℚ))
    (dailyEm : Option (ℚ × ℚ)) (etfLof : Option EtfSpot) (phase : Phase) (today : Nat)
    (holdings : List Holding) (aMap hkMap usMap : List (String × ℚ)) (nowStr : String)
    (r : BackendRes)
    (hu : backendIsOfficialUpdated est.jzrq hist dailyEm today = false)
    (hr : r = backendEstimateFund est hist dailyEm etfLof phase today holdings
            aMap hkMap usMap nowStr) :
    r.lastNavField = some (if (backendOfficialConfirmed hist).1 > 0
      then (backendOfficialConfirmed hist).1 else est.dwjz) := by
  subst hr
  simp only [backendEstimateFund]
  cases hb : (backendStage1 est hist dailyEm etfLof phase today).2 with
  | false =>
      simp only [hb, Bool.false_eq_true, if_false]
      exact backendStage1_lastNav est hist dailyEm etfLof phase today hu
  | true =>
      simp only [hb, if_true]
      rw [backendApplyCalc_lastNav]
      exact backendStage1_lastNav est hist dailyEm etfLof phase today hu

/-- C9 witness: a concrete non-updated fund (no history, no overrides)
keeps `_last_nav` in the returned snapshot. -/
theorem C9_last_nav_witness :
    backendIsOfficialUpdated (backendFetchDefault "w").jzrq [] none 9 = false ∧
    (backendEstimateFund (backendFetchDefault "w") [] none none Phase.MARKET 9
        [] [] [] [] "").lastNavField = some 0 := by
  refine ⟨rfl, ?_⟩
  have h := C9_last_nav_retained (backendFetchDefault "w") [] none none Phase.MARKET 9
    [] [] [] [] "" _ rfl rfl
  rw [h]
  norm_num [backendOfficialConfirmed, backendFetchDefault]
